import Mathlib

/-!
# Verification of the road-network dashboard pipeline (`principal.py`)

The program loads a road layer and a canton layer, computes canton areas with a
geodesic engine, filters roads by a selected category, overlays the filtered
roads against the canton polygons, aggregates clipped lengths per
(canton, category) and per canton, derives a density column, and feeds a table,
a bar chart, a pie chart and a choropleth map.

This file embeds that pipeline shallowly:

* geometries handled only through the external geometry engine are kept as an
  abstract type `Geom`, and the engine's operations (`ginter` for the overlay
  intersection predicate, `glen` for geodesic line length, `garea` for the
  absolute geodesic polygon area) are explicit parameters of each definition;
* the polygon-area entry point `area_f` (line 78 of `principal.py`),
  `abs(geod.geometry_area_perimeter(x)[0])`, is modelled concretely: the signed
  area of a closed vertex ring is embedded as the shoelace sum over rational
  coordinates, which exhibits the engine's documented behaviour that reversing
  the winding direction flips the sign of the signed area;
* tabular values are rationals (`ℚ`), mirroring exact real arithmetic;
* pandas/geopandas collection operations (`filter`, `overlay`, `groupby.agg`,
  `dissolve`, `pivot`, `nlargest`, `sort_values`) become the corresponding
  list operations.
-/

namespace RedVial

/-! ## Geometric measurement (`Geod`, lines 62 and 78–79)

A polygon ring is a list of vertices with rational coordinates.  The signed
area of the ring is the shoelace sum: half the sum of the cross products of
consecutive vertices, the ring being closed by an edge from the last vertex
back to the first.  This is the concrete model of the signed area returned by
`geod.geometry_area_perimeter(x)[0]`; the code then takes its absolute value
(`area_f`, line 78) and rescales from m² to km² (line 79). -/

/-- A vertex of a polygon ring: rational planar coordinates. -/
abbrev Point : Type := ℚ × ℚ

/-- Cross product of two vertices, the summand of the shoelace formula. -/
def cross (a b : Point) : ℚ := a.1 * b.2 - a.2 * b.1

/-- Sum of `cross` over consecutive pairs of an (open) vertex path. -/
def pathSum : List Point → ℚ
  | a :: b :: t => cross a b + pathSum (b :: t)
  | _ => 0

/-- The closing edge of the ring: `cross` of the last vertex with the first
(`0` for rings with fewer than one vertex). -/
def closeEdge (l : List Point) : ℚ :=
  match l.getLast?, l.head? with
  | some x, some y => cross x y
  | _, _ => 0

/-- Signed area of a closed ring: the shoelace sum.  Model of the signed area
component of `geod.geometry_area_perimeter` (an external geodesic engine);
like the engine's signed area, it is antisymmetric in the winding direction. -/
def signedArea (l : List Point) : ℚ := (pathSum l + closeEdge l) / 2

/-- Line 78: `area_f = lambda x: abs(geod.geometry_area_perimeter(x)[0])`. -/
def area_f (l : List Point) : ℚ := |signedArea l|

/-- Line 79: the canton area column, `area_f` rescaled from m² to km². -/
def area_km2 (l : List Point) : ℚ := area_f l / 1000000

/-! ## Data model

Rows of the two loaded layers after column selection (lines 69 and 76), the
canton layer with its derived area column (line 79), and the rows produced by
the overlay and the two aggregations.  Geometries other than the polygon rings
above are abstract: the pipeline only passes them to the geometry engine. -/

/-- A road row after column selection (line 69): `['categoria', 'codigo', 'geometry']`. -/
structure Via (Geom : Type) where
  categoria : String
  codigo : String
  geometry : Geom
deriving DecidableEq

/-- A canton row after column selection (line 76):
`['id', 'canton', 'provincia', 'geometry']`. -/
structure CantonRaw (Geom : Type) where
  id : String
  canton : String
  provincia : String
  geometry : Geom
deriving DecidableEq

/-- A canton row with the derived `area` column (line 79). -/
structure Canton (Geom : Type) where
  id : String
  canton : String
  provincia : String
  geometry : Geom
  area : ℚ
deriving DecidableEq

/-- Line 79: `cantones['area'] = cantones.geometry.apply(area_f) / 1e6`.
The engine's absolute polygon area is the parameter `garea` (in m²). -/
def cantones_con_area {Geom : Type} (garea : Geom → ℚ)
    (cantones : List (CantonRaw Geom)) : List (Canton Geom) :=
  cantones.map (fun c => ⟨c.id, c.canton, c.provincia, c.geometry, garea c.geometry / 1000000⟩)

/-- An output row of `vias.overlay(cantones, how='intersection')` (line 100):
all attributes of the road row and of the canton row, and the clipped
intersection geometry. -/
structure OverRow (Geom : Type) where
  categoria : String
  codigo : String
  id : String
  canton : String
  provincia : String
  area : ℚ
  geometry : Geom
deriving DecidableEq

/-- An overlay row with the derived `longitud` column (line 101). -/
structure InterRow (Geom : Type) where
  categoria : String
  codigo : String
  id : String
  canton : String
  provincia : String
  area : ℚ
  geometry : Geom
  longitud : ℚ
deriving DecidableEq

/-- Line 100: the overlay emits one row per (road, canton) pair whose
geometries have a non-empty intersection of the kept geometry type; the
engine's intersection is the parameter `ginter`, returning `none` when the
pair contributes no output row. -/
def overlay {Geom : Type} (ginter : Geom → Geom → Option Geom)
    (vias : List (Via Geom)) (cantones : List (Canton Geom)) : List (OverRow Geom) :=
  vias.flatMap (fun v =>
    cantones.filterMap (fun c =>
      (ginter v.geometry c.geometry).map (fun g =>
        ⟨v.categoria, v.codigo, c.id, c.canton, c.provincia, c.area, g⟩)))

/-- Lines 100–101: the overlay output with the per-row length column,
`geod.geometry_length` (the parameter `glen`, in m) of the clipped geometry,
converted to km. -/
def cantones_vias {Geom : Type} (ginter : Geom → Geom → Option Geom) (glen : Geom → ℚ)
    (vias : List (Via Geom)) (cantones : List (Canton Geom)) : List (InterRow Geom) :=
  (overlay ginter vias cantones).map (fun r =>
    ⟨r.categoria, r.codigo, r.id, r.canton, r.provincia, r.area, r.geometry, glen r.geometry / 1000⟩)

/-- A row of the `(canton, categoria)` aggregate (lines 103–106). -/
structure CatAgg where
  canton : String
  categoria : String
  area : ℚ
  longitud : ℚ
deriving DecidableEq

/-- The aggregate row of one `(canton, categoria)` group (lines 103–106):
`first` is the first row of the group in input order, `sum` adds over the
group. -/
def fila_por_categoria {Geom : Type} (rows : List (InterRow Geom)) (k : String × String) :
    CatAgg :=
  let g := rows.filter (fun r => r.canton == k.1 && r.categoria == k.2)
  ⟨k.1, k.2, ((g.map (fun r => r.area)).head?).getD 0,
    (g.map (fun r => r.longitud)).sum⟩

/-- Lines 103–106: `groupby(['canton','categoria']).agg(area=first, longitud=sum)`.
One output row per distinct key.  (pandas emits the groups sorted by key; only
the output row order differs, which no aggregate value depends on.) -/
def por_categoria {Geom : Type} (rows : List (InterRow Geom)) : List CatAgg :=
  ((rows.map (fun r => (r.canton, r.categoria))).dedup).map (fila_por_categoria rows)

/-- A row of the per-canton dissolve (lines 108–115): merged geometry list
plus the aggregated attribute columns. -/
structure CantonAgg (Geom : Type) where
  canton : String
  id : String
  area : ℚ
  longitud : ℚ
  geometry : List Geom
deriving DecidableEq

/-- The dissolved row of one canton group (lines 108–115). -/
def fila_por_canton {Geom : Type} (rows : List (InterRow Geom)) (c : String) :
    CantonAgg Geom :=
  let g := rows.filter (fun r => r.canton == c)
  ⟨c, ((g.map (fun r => r.id)).head?).getD "",
    ((g.map (fun r => r.area)).head?).getD 0,
    (g.map (fun r => r.longitud)).sum,
    g.map (fun r => r.geometry)⟩

/-- Lines 108–115: `dissolve(by='canton', aggfunc={id: first, area: first,
longitud: sum})`; the group geometries are unioned (kept here as the list of
member geometries) and one row per distinct canton key is emitted. -/
def por_canton_base {Geom : Type} (rows : List (InterRow Geom)) : List (CantonAgg Geom) :=
  ((rows.map (fun r => r.canton)).dedup).map (fila_por_canton rows)

/-- A per-canton row with the derived density column (line 116). -/
structure CantonAggD (Geom : Type) where
  canton : String
  id : String
  area : ℚ
  longitud : ℚ
  densidad : ℚ
  geometry : List Geom
deriving DecidableEq

/-- Line 116: `por_canton['densidad'] = por_canton['longitud'] / por_canton['area']`. -/
def por_canton {Geom : Type} (rows : List (InterRow Geom)) : List (CantonAggD Geom) :=
  (por_canton_base rows).map (fun r =>
    ⟨r.canton, r.id, r.area, r.longitud, r.longitud / r.area, r.geometry⟩)

/-- A row of the displayed table (lines 126–127): the pivoted length cell for
the canton and the density from the per-canton aggregate. -/
structure TablaRow where
  canton : String
  longitud : ℚ
  densidad : ℚ
deriving DecidableEq

/-- Lines 126–127: pivot `por_categoria` on canton × categoria with the length
as cell value, then inner-join the `densidad` column of `por_canton` on the
canton index.  After the single-category filter each canton has one cell. -/
def tabla {Geom : Type} (pc : List CatAgg) (pcd : List (CantonAggD Geom)) : List TablaRow :=
  ((pc.map (fun r => r.canton)).dedup).filterMap (fun c =>
    ((pcd.find? (fun r => r.canton == c)).map (fun r =>
      ⟨c, ((pc.filter (fun x => x.canton == c)).map (fun x => x.longitud)).sum, r.densidad⟩)))

/-- Descending stable sort on the length column, shared by
`nlargest(15, 'longitud')` (line 144, pandas `nlargest` keeps the first rows
of a stable descending order) and `sort_values('longitud', ascending=False)`
(line 161). -/
def sort_desc {Geom : Type} (l : List (CantonAggD Geom)) : List (CantonAggD Geom) :=
  l.mergeSort (fun a b => decide (b.longitud ≤ a.longitud))

/-- Line 144: the 15 cantons with the largest total length. -/
def top_15 {Geom : Type} (l : List (CantonAggD Geom)) : List (CantonAggD Geom) :=
  (sort_desc l).take 15

/-- Lines 161–162: sort descending by length, reset the index, and relabel the
canton of every row with positional index ≥ 15 as `'Otros cantones'`. -/
def por_canton_pie {Geom : Type} (l : List (CantonAggD Geom)) : List (CantonAggD Geom) :=
  (sort_desc l).enum.map (fun p =>
    if 15 ≤ p.1 then ⟨"Otros cantones", p.2.id, p.2.area, p.2.longitud, p.2.densidad, p.2.geometry⟩
    else p.2)

/-! ## Filter stage (lines 83–86 and 94) -/

/-- Lines 83–84: the distinct category values present in the road data,
sorted; the option list of the selection control. -/
def lista_categorias {Geom : Type} (vias : List (Via Geom)) : List String :=
  ((vias.map (fun v => v.categoria)).dedup).mergeSort (fun a b => decide (a ≤ b))

/-- Line 86: `filtro_categoria_str = filtro_categoria.lower()`, used only in
the widget captions (lines 125, 142, 159, 172).  The lower-casing is applied
character by character. -/
def filtro_categoria_str (filtro_categoria : String) : String :=
  String.mk (filtro_categoria.data.map Char.toLower)

/-- Line 125: the table caption, the only kind of place the lower-cased copy
of the selection is used. -/
def encabezado_tabla (filtro_categoria : String) : String :=
  "Tabla de vías tipo " ++ filtro_categoria_str filtro_categoria

/-- Line 94: `vias = vias[vias['categoria'] == filtro_categoria]`. -/
def vias_filtradas {Geom : Type} (vias : List (Via Geom)) (filtro_categoria : String) :
    List (Via Geom) :=
  vias.filter (fun v => v.categoria == filtro_categoria)

/-! ## Data loader (lines 67–76) -/

/-- The state of an input file on disk, as seen by the loader. -/
inductive FileState (α : Type) where
  | missing
  | malformed
  | ok (layer : α)
deriving DecidableEq

/-- A road-layer row as stored in the geojson, before column selection:
the retained attributes plus arbitrary extra columns. -/
structure RawViaRow (Geom : Type) where
  categoria : String
  codigo : String
  geometry : Geom
  extras : List (String × String)
deriving DecidableEq

/-- A canton-layer row as stored in the geojson, before column selection. -/
structure RawCantonRow (Geom : Type) where
  id : String
  canton : String
  provincia : String
  geometry : Geom
  extras : List (String × String)
deriving DecidableEq

/-- A parsed layer file: its coordinate reference system and its rows. -/
structure RawLayer (row : Type) where
  crs : String
  rows : List row
deriving DecidableEq

/-- Modelled from the spec: `gpd.read_file` is library code outside this
repository; it raises an exception when the file is missing or cannot be
parsed (the script installs no handler, so the exception aborts the run) and
returns the parsed layer otherwise. -/
def read_file {α : Type} : FileState α → Except String α
  | .missing => .error "DriverError: file not found"
  | .malformed => .error "DriverError: not recognized as a supported file format"
  | .ok layer => .ok layer

/-- Lines 67–69: read the road layer and keep `['categoria', 'codigo',
'geometry']`.  The script performs no check on `layer.crs`. -/
def load_vias {Geom : Type} (f : FileState (RawLayer (RawViaRow Geom))) :
    Except String (List (Via Geom)) :=
  (read_file f).map (fun layer =>
    layer.rows.map (fun r => ⟨r.categoria, r.codigo, r.geometry⟩))

/-- Lines 74–76: read the canton layer and keep `['id', 'canton', 'provincia',
'geometry']`.  The script performs no check on `layer.crs`. -/
def load_cantones {Geom : Type} (f : FileState (RawLayer (RawCantonRow Geom))) :
    Except String (List (CantonRaw Geom)) :=
  (read_file f).map (fun layer =>
    layer.rows.map (fun r => ⟨r.id, r.canton, r.provincia, r.geometry⟩))

/-! ## Lemmas on the shoelace signed area -/

theorem cross_antisymm (a b : Point) : cross b a = - cross a b := by
  simp only [cross]; ring

theorem pathSum_cons_cons (a b : Point) (t : List Point) :
    pathSum (a :: b :: t) = cross a b + pathSum (b :: t) := rfl

theorem pathSum_append_last (l : List Point) (x : Point) :
    pathSum (l ++ [x]) =
      pathSum l + (match l.getLast? with | some b => cross b x | none => 0) := by
  induction l with
  | nil => simp [pathSum]
  | cons a t ih =>
    cases t with
    | nil => simp [pathSum]
    | cons b t' =>
      cases h : (b :: t').getLast? with
      | none => simp [List.getLast?_eq_none_iff] at h
      | some z =>
        have h2 : (a :: b :: t').getLast? = some z := by
          rw [List.getLast?_cons_cons]; exact h
        calc pathSum ((a :: b :: t') ++ [x])
            = cross a b + pathSum ((b :: t') ++ [x]) := by
              simp only [List.cons_append, pathSum_cons_cons]
          _ = cross a b + (pathSum (b :: t') + cross z x) := by
              rw [ih, h]
          _ = pathSum (a :: b :: t') + cross z x := by
              rw [pathSum_cons_cons]; ring
          _ = pathSum (a :: b :: t') +
                (match (a :: b :: t').getLast? with
                 | some b => cross b x | none => 0) := by
              rw [h2]

theorem pathSum_reverse (l : List Point) : pathSum l.reverse = - pathSum l := by
  induction l with
  | nil => simp [pathSum]
  | cons a t ih =>
    rw [List.reverse_cons, pathSum_append_last, ih]
    have hlast : t.reverse.getLast? = t.head? := by
      simp [List.getLast?_reverse]
    rw [hlast]
    cases t with
    | nil => simp [pathSum]
    | cons b t' =>
      simp only [List.head?_cons, pathSum]
      rw [cross_antisymm a b]
      ring

theorem closeEdge_reverse (l : List Point) : closeEdge l.reverse = - closeEdge l := by
  cases l with
  | nil => simp [closeEdge]
  | cons a t =>
    have h1 : (a :: t).reverse.getLast? = some a := by
      simp [List.getLast?_reverse]
    have hne : (a :: t).getLast? ≠ none := by
      simp [List.getLast?_eq_none_iff]
    cases h : (a :: t).getLast? with
    | none => exact absurd h hne
    | some z =>
      have h2 : (a :: t).reverse.head? = some z := by
        rw [List.head?_reverse, h]
      rw [closeEdge, h1, h2, closeEdge, h]
      simp only [List.head?_cons]
      exact cross_antisymm z a

theorem signedArea_reverse (l : List Point) : signedArea l.reverse = - signedArea l := by
  rw [signedArea, signedArea, pathSum_reverse, closeEdge_reverse]
  ring

theorem area_f_reverse (l : List Point) : area_f l.reverse = area_f l := by
  rw [area_f, area_f, signedArea_reverse, abs_neg]

theorem area_f_nonneg (l : List Point) : 0 ≤ area_f l := abs_nonneg _

/-! ## Helper lemmas on the aggregation combinators -/

theorem fila_por_categoria_canton {Geom : Type} (rows : List (InterRow Geom))
    (k : String × String) : (fila_por_categoria rows k).canton = k.1 := rfl

theorem fila_por_categoria_longitud {Geom : Type} (rows : List (InterRow Geom))
    (k : String × String) :
    (fila_por_categoria rows k).longitud =
      ((rows.filter (fun r => r.canton == k.1 && r.categoria == k.2)).map
        (fun r => r.longitud)).sum := rfl

theorem fila_por_canton_canton {Geom : Type} (rows : List (InterRow Geom)) (c : String) :
    (fila_por_canton rows c).canton = c := rfl

theorem fila_por_canton_longitud {Geom : Type} (rows : List (InterRow Geom)) (c : String) :
    (fila_por_canton rows c).longitud =
      ((rows.filter (fun r => r.canton == c)).map (fun r => r.longitud)).sum := rfl

/-- Provenance of the rows of `cantones_vias`: one for each (road, canton)
pair on which the engine reports a non-empty kept intersection, carrying the
attributes of both inputs, the clipped geometry and its length in km. -/
theorem mem_cantones_vias {Geom : Type} (ginter : Geom → Geom → Option Geom)
    (glen : Geom → ℚ) (vias : List (Via Geom)) (cantones : List (Canton Geom))
    (r : InterRow Geom) :
    r ∈ cantones_vias ginter glen vias cantones ↔
      ∃ v ∈ vias, ∃ c ∈ cantones, ∃ g, ginter v.geometry c.geometry = some g ∧
        r = ⟨v.categoria, v.codigo, c.id, c.canton, c.provincia, c.area, g, glen g / 1000⟩ := by
  constructor
  · intro hr
    rw [cantones_vias, List.mem_map] at hr
    obtain ⟨o, ho, rfl⟩ := hr
    rw [overlay, List.mem_flatMap] at ho
    obtain ⟨v, hv, ho⟩ := ho
    rw [List.mem_filterMap] at ho
    obtain ⟨c, hc, ho⟩ := ho
    cases hg : ginter v.geometry c.geometry with
    | none => rw [hg] at ho; simp at ho
    | some g =>
      rw [hg] at ho
      simp only [Option.map_some', Option.some.injEq] at ho
      exact ⟨v, hv, c, hc, g, hg, by rw [← ho]⟩
  · rintro ⟨v, hv, c, hc, g, hg, rfl⟩
    rw [cantones_vias, List.mem_map]
    refine ⟨⟨v.categoria, v.codigo, c.id, c.canton, c.provincia, c.area, g⟩, ?_, rfl⟩
    rw [overlay, List.mem_flatMap]
    refine ⟨v, hv, List.mem_filterMap.mpr ⟨c, hc, ?_⟩⟩
    rw [hg]; rfl

/-- Summing an `if`-augmented map over a duplicate-free key list that contains
the distinguished key adds the extra summand exactly once. -/
theorem sum_map_ite_nodup {β : Type} [DecidableEq β] (x : β) (v : ℚ) (h : β → ℚ) :
    ∀ ks : List β, ks.Nodup → x ∈ ks →
      (ks.map (fun b => if x = b then v + h b else h b)).sum = v + (ks.map h).sum := by
  intro ks
  induction ks with
  | nil => intro _ hx; simp at hx
  | cons k t ih =>
    intro hnd hx
    rcases List.mem_cons.mp hx with rfl | hxt
    · have hnt : x ∉ t := (List.nodup_cons.mp hnd).1
      have ht : t.map (fun b => if x = b then v + h b else h b) = t.map h := by
        apply List.map_congr_left
        intro b hb
        rw [if_neg]
        intro e
        exact hnt (e ▸ hb)
      simp only [List.map_cons, List.sum_cons, ht]
      simp [add_assoc]
    · have hk : x ≠ k := by
        rintro rfl
        exact (List.nodup_cons.mp hnd).1 hxt
      simp only [List.map_cons, List.sum_cons, if_neg hk]
      rw [ih (List.nodup_cons.mp hnd).2 hxt]
      ring

/-- Grouping a list into fibers over a duplicate-free key list covering all of
its keys and summing the per-fiber sums recovers the total sum. -/
theorem sum_fiber {α β : Type} [BEq β] [LawfulBEq β] [DecidableEq β]
    (f : α → β) (g : α → ℚ) :
    ∀ (l : List α) (ks : List β), ks.Nodup → (∀ a ∈ l, f a ∈ ks) →
      (ks.map (fun b => ((l.filter (fun a => f a == b)).map g).sum)).sum =
        (l.map g).sum := by
  intro l
  induction l with
  | nil =>
    intro ks _ _
    simp
  | cons a t ih =>
    intro ks hnd hcov
    have hstep : ∀ b ∈ ks,
        (((a :: t).filter (fun a' => f a' == b)).map g).sum =
          if f a = b then g a + ((t.filter (fun a' => f a' == b)).map g).sum
          else ((t.filter (fun a' => f a' == b)).map g).sum := by
      intro b _
      rw [List.filter_cons]
      by_cases hfa : f a = b
      · have hb : (f a == b) = true := beq_iff_eq.mpr hfa
        simp [hb, hfa]
      · have hb : (f a == b) = false := by
          simp [hfa]
        simp [hb, hfa]
    rw [List.map_congr_left hstep,
      sum_map_ite_nodup (f a) (g a) _ ks hnd (hcov a (List.mem_cons_self a t)),
      ih ks hnd (fun a' ha' => hcov a' (List.mem_cons_of_mem a ha'))]
    simp

/-! ## Claims -/

/-- C4, counterexample: the computed canton area is **not** strictly positive
for every polygon — a degenerate ring with collinear vertices gets area `0`,
since `abs` of the signed area only guards the sign, not degeneracy. -/
theorem c4_counterexample :
    ¬ (0 < area_km2 [((0 : ℚ), (0 : ℚ)), (1, 1), (2, 2)]) := by
  have h : area_km2 [((0 : ℚ), (0 : ℚ)), (1, 1), (2, 2)] = 0 := by
    norm_num [area_km2, area_f, signedArea, pathSum, closeEdge, cross,
      List.getLast?, List.head?]
  rw [h]
  exact lt_irrefl 0

/-- C4 (amended): for every canton polygon the computed area in km² is
nonnegative (strict positivity fails only on degenerate rings of zero signed
area), and reversing the polygon's vertex order (opposite winding direction)
yields the same area value. -/
theorem c4_area_invariante_orientacion (l : List Point) :
    0 ≤ area_km2 l ∧ area_km2 l.reverse = area_km2 l := by
  constructor
  · exact div_nonneg (area_f_nonneg l) (by norm_num)
  · rw [area_km2, area_km2, area_f_reverse]

/-- C5: the filter stage returns exactly the road rows whose stored category
equals the selection under case-sensitive string equality; concretely, the
selection `"PRIMARIA"` keeps a `"PRIMARIA"` row while its lower-cased copy
(`filtro_categoria_str`, used only for captions) would not match it. -/
theorem c5_filtro_exacto :
    (∀ (Geom : Type) (vias : List (Via Geom)) (c : String) (v : Via Geom),
        v ∈ vias_filtradas vias c ↔ v ∈ vias ∧ v.categoria = c) ∧
    vias_filtradas ([⟨"PRIMARIA", "c1", ()⟩] : List (Via Unit)) "PRIMARIA" =
      [⟨"PRIMARIA", "c1", ()⟩] ∧
    vias_filtradas ([⟨"PRIMARIA", "c1", ()⟩] : List (Via Unit))
      (filtro_categoria_str "PRIMARIA") = [] := by
  refine ⟨?_, by decide, by decide⟩
  intro Geom vias c v
  rw [vias_filtradas, List.mem_filter]
  simp only [beq_iff_eq]

/-- C7, counterexample: the loader does **not** abort on an unexpected
coordinate reference system — a layer whose CRS is not the expected
geographic one loads successfully, because the script never inspects the CRS. -/
theorem c7_counterexample :
    load_vias (FileState.ok (⟨"EPSG:3857", []⟩ : RawLayer (RawViaRow Unit))) = Except.ok [] ∧
    "EPSG:3857" ≠ "EPSG:4326" :=
  ⟨rfl, by decide⟩

/-- C7 (amended): the loader fails loudly — the read error propagates, with no
silent defaulting — exactly when an input file is missing or malformed; it
performs no CRS validation, so the load result depends only on the layer rows
and not on the layer's CRS. -/
theorem c7_carga_falla_fuerte :
    (∀ (Geom : Type) (f : FileState (RawLayer (RawViaRow Geom))),
        (∃ e, load_vias f = Except.error e) ↔
          f = FileState.missing ∨ f = FileState.malformed) ∧
    (∀ (Geom : Type) (f : FileState (RawLayer (RawCantonRow Geom))),
        (∃ e, load_cantones f = Except.error e) ↔
          f = FileState.missing ∨ f = FileState.malformed) ∧
    (∀ (Geom : Type) (rows : List (RawViaRow Geom)) (crs1 crs2 : String),
        load_vias (FileState.ok ⟨crs1, rows⟩) = load_vias (FileState.ok ⟨crs2, rows⟩)) ∧
    (∀ (Geom : Type) (rows : List (RawCantonRow Geom)) (crs1 crs2 : String),
        load_cantones (FileState.ok ⟨crs1, rows⟩) =
          load_cantones (FileState.ok ⟨crs2, rows⟩)) := by
  refine ⟨?_, ?_, ?_, ?_⟩
  · intro Geom f
    cases f <;> simp [load_vias, read_file, Except.map]
  · intro Geom f
    cases f <;> simp [load_cantones, read_file, Except.map]
  · intro Geom rows crs1 crs2
    rfl
  · intro Geom rows crs1 crs2
    rfl

/-- C10: every category offered by the selection control — the sorted distinct
category values of the road data — matches at least one row of the road
collection it was computed from, so the zero-match filter outcome is
unreachable for a selectable category. -/
theorem c10_categoria_presente {Geom : Type} (vias : List (Via Geom)) (c : String)
    (h : c ∈ lista_categorias vias) :
    ∃ v, v ∈ vias_filtradas vias c := by
  rw [lista_categorias] at h
  have h1 : c ∈ (vias.map (fun v => v.categoria)).dedup :=
    (List.mergeSort_perm _ _).mem_iff.mp h
  have h2 : c ∈ vias.map (fun v => v.categoria) := List.mem_dedup.mp h1
  rw [List.mem_map] at h2
  obtain ⟨v, hv, hc⟩ := h2
  exact ⟨v, List.mem_filter.mpr ⟨hv, beq_iff_eq.mpr hc⟩⟩

/-- Witness for C10 at a concrete road collection and selectable category. -/
theorem c10_witness :
    "PRIMARIA" ∈ lista_categorias ([⟨"PRIMARIA", "1", ()⟩] : List (Via Unit)) ∧
    ∃ v, v ∈ vias_filtradas ([⟨"PRIMARIA", "1", ()⟩] : List (Via Unit)) "PRIMARIA" := by
  have hm : "PRIMARIA" ∈ lista_categorias ([⟨"PRIMARIA", "1", ()⟩] : List (Via Unit)) := by
    rw [lista_categorias]
    exact (List.mergeSort_perm _ _).mem_iff.mpr (by decide)
  exact ⟨hm, c10_categoria_presente _ _ hm⟩

/-- Density of every row of the per-canton aggregate is length over area. -/
theorem por_canton_densidad {Geom : Type} (rows : List (InterRow Geom)) :
    ∀ r ∈ por_canton rows, r.densidad = r.longitud / r.area := by
  intro r hr
  rw [por_canton, List.mem_map] at hr
  obtain ⟨b, _, rfl⟩ := hr
  rfl

/-- The cantons present in the per-canton aggregate are exactly the cantons
of the intersection rows it was built from. -/
theorem por_canton_cantones {Geom : Type} (rows : List (InterRow Geom)) (c : String) :
    (∃ r ∈ por_canton rows, r.canton = c) ↔ ∃ x ∈ rows, x.canton = c := by
  constructor
  · rintro ⟨r, hr, rfl⟩
    rw [por_canton, List.mem_map] at hr
    obtain ⟨b, hb, rfl⟩ := hr
    rw [por_canton_base, List.mem_map] at hb
    obtain ⟨c', hc', rfl⟩ := hb
    have h1 : c' ∈ rows.map (fun x => x.canton) := List.mem_dedup.mp hc'
    rw [List.mem_map] at h1
    obtain ⟨x, hx, hxc⟩ := h1
    exact ⟨x, hx, hxc⟩
  · rintro ⟨x, hx, rfl⟩
    rw [por_canton, por_canton_base]
    have hc : x.canton ∈ (rows.map (fun y => y.canton)).dedup :=
      List.mem_dedup.mpr (List.mem_map_of_mem _ hx)
    exact ⟨_, List.mem_map_of_mem _ (List.mem_map_of_mem _ hc), rfl⟩

/-- C1: every row of the per-canton aggregate has
`densidad = longitud / area`, and a canton appears in the aggregate exactly
when it has at least one intersection row — density is never computed for a
canton absent from the aggregate. -/
theorem c1_densidad_por_canton {Geom : Type} (ginter : Geom → Geom → Option Geom)
    (glen : Geom → ℚ) (vias : List (Via Geom)) (cantones : List (Canton Geom)) :
    (∀ r ∈ por_canton (cantones_vias ginter glen vias cantones),
        r.densidad = r.longitud / r.area) ∧
    (∀ c : String,
        (∃ r ∈ por_canton (cantones_vias ginter glen vias cantones), r.canton = c) ↔
          ∃ x ∈ cantones_vias ginter glen vias cantones, x.canton = c) :=
  ⟨por_canton_densidad _, fun c => por_canton_cantones _ c⟩

/-- Witness for C1 at a concrete instantiation of the pipeline. -/
theorem c1_witness :
    (⟨"A", "7", 2, 5000 / 1000 + 0, (5000 / 1000 + 0) / 2, [()]⟩ : CantonAggD Unit).densidad =
      (⟨"A", "7", 2, 5000 / 1000 + 0, (5000 / 1000 + 0) / 2, [()]⟩ : CantonAggD Unit).longitud /
        (⟨"A", "7", 2, 5000 / 1000 + 0, (5000 / 1000 + 0) / 2, [()]⟩ : CantonAggD Unit).area :=
  (c1_densidad_por_canton (fun _ _ => some ()) (fun _ => 5000)
      [⟨"P", "1", ()⟩] [⟨"7", "A", "SJ", (), 2⟩]).1 _ (List.mem_singleton.mpr rfl)

/-- C2: every intersection row's `longitud` is the geodesic length of the
clipped intersection geometry (the overlay output geometry) divided by 1000,
and that geometry is the engine's intersection of a road with the canton of
the row — not the original full road segment. -/
theorem c2_longitud_recortada {Geom : Type} (ginter : Geom → Geom → Option Geom)
    (glen : Geom → ℚ) (vias : List (Via Geom)) (cantones : List (Canton Geom)) :
    ∀ r ∈ cantones_vias ginter glen vias cantones,
      r.longitud = glen r.geometry / 1000 ∧
      ∃ v ∈ vias, ∃ c ∈ cantones, ginter v.geometry c.geometry = some r.geometry := by
  intro r hr
  obtain ⟨v, hv, c, hc, g, hg, rfl⟩ := (mem_cantones_vias ginter glen vias cantones r).mp hr
  exact ⟨rfl, v, hv, c, hc, hg⟩

/-- Witness for C2: a road of geometry `4` clipped against a canton of
geometry `3` leaves the clipped geometry `3`, whose length in km the row
carries — not the length of the original geometry `4`. -/
theorem c2_witness :
    (⟨"P", "1", "7", "A", "SJ", 9, 3, 3 / 1000⟩ : InterRow ℚ).longitud =
      (fun q : ℚ => q) (⟨"P", "1", "7", "A", "SJ", 9, 3, 3 / 1000⟩ : InterRow ℚ).geometry /
        1000 ∧
    ∃ v ∈ [(⟨"P", "1", 4⟩ : Via ℚ)], ∃ c ∈ [(⟨"7", "A", "SJ", 3, 9⟩ : Canton ℚ)],
      (fun _ c : ℚ => some c) v.geometry c.geometry =
        some (⟨"P", "1", "7", "A", "SJ", 9, 3, 3 / 1000⟩ : InterRow ℚ).geometry :=
  c2_longitud_recortada (fun _ c : ℚ => some c) (fun q : ℚ => q)
    [⟨"P", "1", 4⟩] [⟨"7", "A", "SJ", 3, 9⟩] _ (List.mem_singleton.mpr rfl)

/-- C6: when the selected category's roads have no non-empty intersection with
any canton, the whole pipeline yields empty collections — the intersection
table, both aggregates and the displayed table have zero rows, and in
particular no row with density `0` exists. -/
theorem c6_sin_intersecciones {Geom : Type} (ginter : Geom → Geom → Option Geom)
    (glen : Geom → ℚ) (vias : List (Via Geom)) (cantones : List (Canton Geom))
    (h : ∀ v ∈ vias, ∀ c ∈ cantones, ginter v.geometry c.geometry = none) :
    cantones_vias ginter glen vias cantones = [] ∧
    por_categoria (cantones_vias ginter glen vias cantones) = [] ∧
    por_canton (cantones_vias ginter glen vias cantones) = [] ∧
    tabla (por_categoria (cantones_vias ginter glen vias cantones))
      (por_canton (cantones_vias ginter glen vias cantones)) = [] ∧
    ¬ ∃ r ∈ por_canton (cantones_vias ginter glen vias cantones), r.densidad = 0 := by
  have hcv : cantones_vias ginter glen vias cantones = [] := by
    rw [List.eq_nil_iff_forall_not_mem]
    intro r hr
    obtain ⟨v, hv, c, hc, g, hg, _⟩ := (mem_cantones_vias ginter glen vias cantones r).mp hr
    rw [h v hv c hc] at hg
    exact Option.noConfusion hg
  refine ⟨hcv, ?_, ?_, ?_, ?_⟩ <;> rw [hcv]
  · rfl
  · rfl
  · rfl
  · rintro ⟨r, hr, _⟩
    simp [por_canton, por_canton_base] at hr

/-- Witness for C6 at a concrete category with no geometric overlap. -/
theorem c6_witness :
    cantones_vias (fun _ _ => (none : Option Unit)) (fun _ => 0)
      [⟨"P", "1", ()⟩] [⟨"7", "A", "SJ", (), 2⟩] = [] ∧
    por_categoria (cantones_vias (fun _ _ => (none : Option Unit)) (fun _ => 0)
      [⟨"P", "1", ()⟩] [⟨"7", "A", "SJ", (), 2⟩]) = [] ∧
    por_canton (cantones_vias (fun _ _ => (none : Option Unit)) (fun _ => 0)
      [⟨"P", "1", ()⟩] [⟨"7", "A", "SJ", (), 2⟩]) = [] ∧
    tabla (por_categoria (cantones_vias (fun _ _ => (none : Option Unit)) (fun _ => 0)
      [⟨"P", "1", ()⟩] [⟨"7", "A", "SJ", (), 2⟩]))
      (por_canton (cantones_vias (fun _ _ => (none : Option Unit)) (fun _ => 0)
        [⟨"P", "1", ()⟩] [⟨"7", "A", "SJ", (), 2⟩])) = [] ∧
    ¬ ∃ r ∈ por_canton (cantones_vias (fun _ _ => (none : Option Unit)) (fun _ => 0)
      [⟨"P", "1", ()⟩] [⟨"7", "A", "SJ", (), 2⟩]), r.densidad = 0 :=
  c6_sin_intersecciones _ _ _ _ (fun _ _ _ _ => rfl)

/-- C9, counterexample: two rows of the intersection result can share the
canton key and still carry different area values — it suffices that the canton
layer contain two rows with the same canton name and different geometries. -/
theorem c9_counterexample :
    ¬ (∀ r1 ∈ cantones_vias (fun _ _ => some ()) (fun _ => 0) [⟨"P", "1", ()⟩]
          [⟨"1", "A", "SJ", (), 1⟩, ⟨"2", "A", "H", (), 2⟩],
        ∀ r2 ∈ cantones_vias (fun _ _ => some ()) (fun _ => 0) [⟨"P", "1", ()⟩]
          [⟨"1", "A", "SJ", (), 1⟩, ⟨"2", "A", "H", (), 2⟩],
        r1.canton = r2.canton → r1.area = r2.area) := by
  decide

/-- C9 (amended): provided equal canton names in the canton layer imply equal
area values (for instance when canton names are unique), every pair of
intersection rows sharing a canton key carries an identical area, so the
`first` aggregation policy for area is well-defined. -/
theorem c9_area_constante_por_canton {Geom : Type} (ginter : Geom → Geom → Option Geom)
    (glen : Geom → ℚ) (vias : List (Via Geom)) (cantones : List (Canton Geom))
    (h : ∀ c1 ∈ cantones, ∀ c2 ∈ cantones, c1.canton = c2.canton → c1.area = c2.area) :
    ∀ r1 ∈ cantones_vias ginter glen vias cantones,
      ∀ r2 ∈ cantones_vias ginter glen vias cantones,
        r1.canton = r2.canton → r1.area = r2.area := by
  intro r1 h1 r2 h2 hcc
  obtain ⟨v1, hv1, d1, hd1, g1, hg1, rfl⟩ := (mem_cantones_vias _ _ _ _ _).mp h1
  obtain ⟨v2, hv2, d2, hd2, g2, hg2, rfl⟩ := (mem_cantones_vias _ _ _ _ _).mp h2
  exact h d1 hd1 d2 hd2 hcc

/-- Witness for the amended C9 at a concrete canton layer with unique names. -/
theorem c9_witness :
    (⟨"P", "1", "7", "A", "SJ", 3, (), 0 / 1000⟩ : InterRow Unit).area =
      (⟨"P", "2", "7", "A", "SJ", 3, (), 0 / 1000⟩ : InterRow Unit).area :=
  c9_area_constante_por_canton (fun _ _ => some ()) (fun _ => 0)
    [⟨"P", "1", ()⟩, ⟨"P", "2", ()⟩] [⟨"7", "A", "SJ", (), 3⟩]
    (by decide) _ (List.mem_cons_self _ _) _
    (List.mem_cons.mpr (Or.inr (List.mem_singleton.mpr rfl))) rfl

/-- The pie rows beyond position 15 are exactly the sorted rows beyond
position 15, each relabeled `'Otros cantones'`. -/
theorem pie_drop_relabel {Geom : Type} (l : List (CantonAggD Geom)) :
    (por_canton_pie l).drop 15 =
      ((sort_desc l).drop 15).map
        (fun r => ⟨"Otros cantones", r.id, r.area, r.longitud, r.densidad, r.geometry⟩) := by
  have hidx : ∀ p ∈ (sort_desc l).enum.drop 15, 15 ≤ p.1 := by
    intro p hp
    obtain ⟨j, hj, hpj⟩ := List.mem_iff_getElem.mp hp
    rw [List.getElem_drop] at hpj
    have hlen : 15 + j < (sort_desc l).enum.length := by
      rw [List.length_drop] at hj
      omega
    have he := List.getElem_enum (sort_desc l) (15 + j) (by simpa using hlen)
    rw [he] at hpj
    rw [← hpj]
    exact Nat.le_add_right 15 j
  have h2 : (sort_desc l).drop 15 = ((sort_desc l).enum.drop 15).map Prod.snd := by
    rw [List.map_drop, List.enum_map_snd]
  rw [por_canton_pie, ← List.map_drop, h2, List.map_map]
  apply List.map_congr_left
  intro p hp
  simp only [Function.comp_apply]
  rw [if_pos (hidx p hp)]

/-- C8: every pie row beyond rank 15 is relabeled `'Otros cantones'`, and the
total length of that bucket equals the grand total length over all cantons
minus the sum of the top-15 lengths, exactly. -/
theorem c8_bucket_otros {Geom : Type} (l : List (CantonAggD Geom)) :
    ((por_canton_pie l).drop 15).map (fun r => r.canton) =
      List.replicate ((sort_desc l).drop 15).length "Otros cantones" ∧
    (((por_canton_pie l).drop 15).map (fun r => r.longitud)).sum =
      (l.map (fun r => r.longitud)).sum - ((top_15 l).map (fun r => r.longitud)).sum := by
  constructor
  · rw [pie_drop_relabel, List.map_map]
    exact List.map_const' _ _
  · rw [pie_drop_relabel, List.map_map]
    have hL : ((sort_desc l).drop 15).map
        ((fun r : CantonAggD Geom => r.longitud) ∘
          (fun r : CantonAggD Geom =>
            (⟨"Otros cantones", r.id, r.area, r.longitud, r.densidad, r.geometry⟩ :
              CantonAggD Geom))) =
        ((sort_desc l).drop 15).map (fun r => r.longitud) := rfl
    rw [hL]
    have hperm : ((sort_desc l).map (fun r => r.longitud)).sum =
        (l.map (fun r => r.longitud)).sum :=
      ((List.mergeSort_perm l _).map _).sum_eq
    have hsplit : ((sort_desc l).map (fun r => r.longitud)).sum =
        ((top_15 l).map (fun r => r.longitud)).sum +
          (((sort_desc l).drop 15).map (fun r => r.longitud)).sum := by
      rw [top_15]
      conv_lhs => rw [← List.take_append_drop 15 (sort_desc l)]
      rw [List.map_append, List.sum_append]
    linarith

/-- The lengths of the classified aggregate restricted to one canton total the
lengths of the intersection rows of that canton. -/
theorem sum_por_categoria_canton {Geom : Type} (rows : List (InterRow Geom)) (c : String) :
    (((por_categoria rows).filter (fun x => x.canton == c)).map (fun x => x.longitud)).sum =
      ((rows.filter (fun r' => r'.canton == c)).map (fun r' => r'.longitud)).sum := by
  rw [por_categoria, List.filter_map, List.map_map]
  have hcc : ∀ k ∈ ((rows.map (fun r' => (r'.canton, r'.categoria))).dedup).filter
      ((fun x => x.canton == c) ∘ fila_por_categoria rows), k.1 = c := by
    intro k hk
    exact beq_iff_eq.mp ((List.mem_filter.mp hk).2)
  have hterm : ∀ k ∈ ((rows.map (fun r' => (r'.canton, r'.categoria))).dedup).filter
      ((fun x => x.canton == c) ∘ fila_por_categoria rows),
      ((fun x : CatAgg => x.longitud) ∘ fila_por_categoria rows) k =
        ((fun q : String =>
            (((rows.filter (fun r' => r'.canton == c)).filter
              (fun r' => r'.categoria == q)).map (fun r' => r'.longitud)).sum) ∘
          Prod.snd) k := by
    intro k hk
    have hk1 : k.1 = c := hcc k hk
    simp only [Function.comp_apply]
    rw [fila_por_categoria_longitud, List.filter_filter]
    rw [← hk1]
    apply congrArg
    apply congrArg
    apply List.filter_congr
    intro a _
    rw [Bool.and_comm]
  rw [List.map_congr_left hterm, ← List.map_map]
  have hKcnd : (((rows.map (fun r' => (r'.canton, r'.categoria))).dedup).filter
      ((fun x => x.canton == c) ∘ fila_por_categoria rows)).Nodup :=
    (List.nodup_dedup _).filter _
  have hksnd : ((((rows.map (fun r' => (r'.canton, r'.categoria))).dedup).filter
      ((fun x => x.canton == c) ∘ fila_por_categoria rows)).map Prod.snd).Nodup := by
    apply List.Nodup.map_on ?_ hKcnd
    intro x hx y hy hxy
    exact Prod.ext ((hcc x hx).trans (hcc y hy).symm) hxy
  have hcov : ∀ a ∈ rows.filter (fun r' => r'.canton == c),
      (fun r' : InterRow Geom => r'.categoria) a ∈
        (((rows.map (fun r' => (r'.canton, r'.categoria))).dedup).filter
          ((fun x => x.canton == c) ∘ fila_por_categoria rows)).map Prod.snd := by
    intro a ha
    have hmem := List.mem_filter.mp ha
    have hac : a.canton = c := beq_iff_eq.mp hmem.2
    have hKc : (a.canton, a.categoria) ∈
        ((rows.map (fun r' => (r'.canton, r'.categoria))).dedup).filter
          ((fun x => x.canton == c) ∘ fila_por_categoria rows) := by
      apply List.mem_filter.mpr
      refine ⟨List.mem_dedup.mpr (List.mem_map_of_mem _ hmem.1), ?_⟩
      show ((a.canton, a.categoria).1 == c) = true
      exact beq_iff_eq.mpr hac
    exact List.mem_map_of_mem Prod.snd hKc
  exact sum_fiber (fun r' : InterRow Geom => r'.categoria)
    (fun r' : InterRow Geom => r'.longitud)
    (rows.filter (fun r' => r'.canton == c)) _ hksnd hcov

/-- C3: for every canton, the total length of the per-canton aggregate equals
the sum of the lengths of the per-(canton, category) aggregate rows restricted
to that canton — the two grouping levels are consistent. -/
theorem c3_consistencia_niveles {Geom : Type} (rows : List (InterRow Geom)) :
    ∀ r ∈ por_canton rows,
      r.longitud =
        (((por_categoria rows).filter (fun x => x.canton == r.canton)).map
          (fun x => x.longitud)).sum := by
  intro r hr
  rw [por_canton, List.mem_map] at hr
  obtain ⟨b, hb, rfl⟩ := hr
  rw [por_canton_base, List.mem_map] at hb
  obtain ⟨c, hc, rfl⟩ := hb
  show (fila_por_canton rows c).longitud =
    (((por_categoria rows).filter (fun x => x.canton == c)).map (fun x => x.longitud)).sum
  rw [fila_por_canton_longitud, sum_por_categoria_canton]

/-- Witness for C3 at a concrete list of intersection rows. -/
theorem c3_witness :
    (⟨"A", "7", 2, 3 + 0, (3 + 0) / 2, [()]⟩ : CantonAggD Unit).longitud =
      (((por_categoria [(⟨"P", "x", "7", "A", "SJ", 2, (), 3⟩ : InterRow Unit)]).filter
        (fun x => x.canton ==
          (⟨"A", "7", 2, 3 + 0, (3 + 0) / 2, [()]⟩ : CantonAggD Unit).canton)).map
        (fun x => x.longitud)).sum :=
  c3_consistencia_niveles [(⟨"P", "x", "7", "A", "SJ", 2, (), 3⟩ : InterRow Unit)] _
    (List.mem_singleton.mpr rfl)

end RedVial
